import Mathlib

/-!
Verification of the process-supervision core of a Tauri desktop shell for the
ElizaOS CLI.  The definitions below are a shallow embedding of
`src-tauri/src/models.rs` and `src-tauri/src/commands/process.rs`:

  - the data model (`SandboxConfig`, `RunMode`, `RunSpec`, `RunStatus`,
    `RunResult`, `ProcessHandle`, `ApiResponse`, `AppError`);
  - the pure argument builder `build_eliza_args`;
  - the control interface `stop_eliza_run` / `kill_eliza_run` over an
    associative-list model of the process registry;
  - the two execution paths `execute_eliza_run_simple` and
    `execute_eliza_run_streaming`, parameterised over the outcomes of the
    external OS interactions (CLI probing, spawn, wait, captured lines),
    which are the only non-deterministic inputs;
  - a byte-level model of the secret-redaction code, where the partiality of
    Rust byte-slicing (`&arg[..12]`) is made explicit with `Option`;
  - a small-step model of the post-finalisation registry timeline (delayed
    cleanup of finished entries).

Effects of the real code that no claim is about (log lines, UI event
emission) are not modelled.  Timestamps, elapsed times and generated run
identifiers are passed in as parameters, since they come from the
environment.
-/

namespace ElizaTauri

/-! ### Data model, from models.rs -/

structure SandboxConfig where
  base_url : String
  api_key : String
  default_model : Option String
  deriving Repr, DecidableEq

/-- Embedding of `SandboxConfig::is_valid` (models.rs): nonempty base url and
api key, base url starting with "http", api key starting with "eliza_" and of
length 70.  String tests are carried out on the underlying character lists. -/
def SandboxConfig.is_valid (c : SandboxConfig) : Bool :=
  !c.base_url.data.isEmpty &&
  !c.api_key.data.isEmpty &&
  "http".data.isPrefixOf c.base_url.data &&
  "eliza_".data.isPrefixOf c.api_key.data &&
  c.api_key.data.length == 70

inductive RunMode where
  | Doctor
  | Run
  | Eval
  | Custom
  deriving Repr, DecidableEq

structure RunSpec where
  id : String
  mode : RunMode
  args : List String
  env : List (String × String)
  working_dir : Option String
  character_file : Option String
  deriving Repr, DecidableEq

inductive RunStatus where
  | Running
  | Completed
  | Failed
  | Killed
  deriving Repr, DecidableEq

structure RunResult where
  id : String
  spec : RunSpec
  started_at : String
  ended_at : Option String
  exit_code : Option Int
  stdout : List String
  stderr : List String
  duration_ms : Option Nat
  status : RunStatus
  pid : Option Nat
  deriving Repr, DecidableEq

/-- Embedding of `RunResult::new` (models.rs).  Note that the second
parameter is the started-at timestamp and that the id field is copied from
the spec. -/
def RunResult.new (spec : RunSpec) (started_at : String) : RunResult :=
  { id := spec.id
    spec := spec
    started_at := started_at
    ended_at := none
    exit_code := none
    stdout := []
    stderr := []
    duration_ms := none
    status := RunStatus.Running
    pid := none }

/-- Embedding of `RunResult::complete` (models.rs). -/
def RunResult.complete (r : RunResult) (exit_code : Int) (ended_at : String)
    (duration_ms : Nat) : RunResult :=
  { r with
    exit_code := some exit_code
    ended_at := some ended_at
    duration_ms := some duration_ms
    status := if exit_code = 0 then RunStatus.Completed else RunStatus.Failed }

/-- Embedding of `RunResult::kill` (models.rs). -/
def RunResult.kill (r : RunResult) (ended_at : String) (duration_ms : Nat) :
    RunResult :=
  { r with
    ended_at := some ended_at
    duration_ms := some duration_ms
    status := RunStatus.Killed }

structure ProcessHandle where
  run_result : RunResult
  can_control : Bool
  deriving Repr, DecidableEq

/-- Embedding of `ProcessHandle::new` (process.rs): freshly registered
handles are controllable. -/
def ProcessHandle.new (run_result : RunResult) : ProcessHandle :=
  { run_result := run_result, can_control := true }

/-- Embedding of `ProcessHandle::update_result`. -/
def ProcessHandle.update_result (h : ProcessHandle) (new_result : RunResult) :
    ProcessHandle :=
  { h with run_result := new_result }

/-- Embedding of `ProcessHandle::mark_completed`. -/
def ProcessHandle.mark_completed (h : ProcessHandle) : ProcessHandle :=
  { h with can_control := false }

structure ApiError where
  code : String
  message : String
  deriving Repr, DecidableEq

structure ApiResponse (α : Type) where
  success : Bool
  data : Option α
  error : Option ApiError
  deriving Repr, DecidableEq

/-- Embedding of `ApiResponse::success` (the constructor function). -/
def ApiResponse.ok {α : Type} (x : α) : ApiResponse α :=
  { success := true, data := some x, error := none }

/-- Embedding of `ApiResponse::error` (the constructor function). -/
def ApiResponse.err {α : Type} (code message : String) : ApiResponse α :=
  { success := false, data := none, error := some { code := code, message := message } }

/-- Embedding of the `AppError` variants reachable from the process module. -/
inductive AppError where
  | Config (msg : String)
  | Process (msg : String)
  | CliNotFound (msg : String)
  | Unknown (msg : String)
  deriving Repr, DecidableEq

/-- Display implementation from the thiserror attributes in models.rs. -/
def AppError.message : AppError → String
  | .Config m => "Configuration error: " ++ m
  | .Process m => "Process error: " ++ m
  | .CliNotFound m => "CLI not found: " ++ m
  | .Unknown m => "Unknown error: " ++ m

/-! ### Argument builder, from process.rs -/

/-- Embedding of `build_eliza_args` (process.rs lines 684-745).  The config
parameter is unused in the source as well; the Rust `Result` never carries an
error on any path, so the embedding returns the vector directly. -/
def build_eliza_args (spec : RunSpec) (_config : SandboxConfig)
    (use_npx : Bool) : List String :=
  let args0 : List String :=
    if use_npx then ["-y", "@elizaos/cli@latest"] else []
  let args1 : List String :=
    args0 ++
      (match spec.mode, spec.args with
        | RunMode.Doctor, _ => ["test", "--type", "component", "--skip-build"]
        | RunMode.Run, [] => ["start"]
        | RunMode.Run, a :: _ => ["start", "--character", a]
        | RunMode.Eval, _ => ["dev"]
        | RunMode.Custom, [] => ["--help"]
        | RunMode.Custom, a :: _ => [a])
  let args2 : List String :=
    args1 ++
      (match spec.character_file with
        | some cf => ["--character", cf]
        | none => [])
  let skip_count : Nat :=
    if (match spec.mode with | RunMode.Custom => true | _ => false)
        && !spec.args.isEmpty then 1 else 0
  args2 ++ spec.args.drop skip_count

/-- The mode-to-argv table exactly as the specification describes it:
Doctor maps to the diagnostic subcommand with its flags, Run to the start
subcommand plus a character-file flag taken from the first positional
argument when args is non-empty, Eval to the development subcommand, and
Custom to the first caller argument verbatim or a help flag if none. -/
def spec_mode_argv (mode : RunMode) (args : List String) : List String :=
  match mode with
  | RunMode.Doctor => ["test", "--type", "component", "--skip-build"]
  | RunMode.Run =>
      ["start"] ++ (match args with | [] => [] | a :: _ => ["--character", a])
  | RunMode.Eval => ["dev"]
  | RunMode.Custom => (match args with | [] => ["--help"] | a :: _ => [a])

/-- The whole argument vector as the specification describes it: the
package-runner prefix when the fallback is used, then the mode table, then a
character-file flag when the spec carries one, then the remaining caller
arguments in order, skipping the first one only for Custom mode. -/
def spec_build_args (spec : RunSpec) (use_npx : Bool) : List String :=
  (if use_npx then ["-y", "@elizaos/cli@latest"] else []) ++
  spec_mode_argv spec.mode spec.args ++
  (match spec.character_file with
    | some cf => ["--character", cf]
    | none => []) ++
  spec.args.drop (match spec.mode with | RunMode.Custom => 1 | _ => 0)

/-! ### Process registry, from process.rs

The registry is `Arc<RwLock<HashMap<String, Arc<Mutex<ProcessHandle>>>>>` in
the source.  We model the map as an association list with first-match lookup;
insertion prepends, removal filters out the key, and in-place mutation of a
looked-up handle maps over the matching entry. -/

abbrev Registry := List (String × ProcessHandle)

def lookupReg : Registry → String → Option ProcessHandle
  | [], _ => none
  | p :: t, id => if p.1 == id then some p.2 else lookupReg t id

def insertReg (reg : Registry) (id : String) (h : ProcessHandle) : Registry :=
  (id, h) :: reg

def removeReg (reg : Registry) (id : String) : Registry :=
  reg.filter (fun p => !(p.1 == id))

def modifyReg (reg : Registry) (id : String)
    (f : ProcessHandle → ProcessHandle) : Registry :=
  reg.map (fun p => if p.1 == id then (p.1, f p.2) else p)

/-- Embedding of the `get_run_result` command (process.rs lines 780-801). -/
def get_run_result (reg : Registry) (run_id : String) : ApiResponse RunResult :=
  match lookupReg reg run_id with
  | some h => ApiResponse.ok h.run_result
  | none => ApiResponse.err "NOT_FOUND" ("Run " ++ run_id ++ " not found")

/-! ### Control interface, from process.rs

Signal delivery is an OS interaction; its outcome is a parameter.  Only the
Unix branch is modelled (`cfg(unix)`); `now` stands for the value of
`current_timestamp()` at the moment of the call. -/

inductive SignalOutcome where
  | delivered
  | failed (os_error : String)
  deriving Repr, DecidableEq

/-- Embedding of the `stop_eliza_run` command (process.rs lines 109-202),
Unix branch.  Returns the registry after the call together with the command
response. -/
def stop_eliza_run (reg : Registry) (run_id : String) (now : String)
    (signal : SignalOutcome) : Registry × ApiResponse RunResult :=
  match lookupReg reg run_id with
  | none =>
      (reg, ApiResponse.err "NOT_FOUND"
        ("Process " ++ run_id ++ " not found or already completed"))
  | some h =>
      if h.can_control then
        match h.run_result.pid with
        | some pid =>
            match signal with
            | SignalOutcome.delivered =>
                let h1 := ProcessHandle.mark_completed
                  { h with run_result :=
                      { h.run_result with
                          status := RunStatus.Killed
                          ended_at := some now } }
                (modifyReg reg run_id (fun _ => h1), ApiResponse.ok h1.run_result)
            | SignalOutcome.failed e =>
                (reg, ApiResponse.err "STOP_ERROR"
                  ("Failed to stop process (PID: " ++ toString pid ++ "): " ++ e))
        | none =>
            (reg, ApiResponse.err "NO_PID"
              "Process has no PID available for control")
      else
        (reg, ApiResponse.ok h.run_result)

/-- Embedding of the `kill_eliza_run` command (process.rs lines 206-301),
Unix branch.  Identical to stop except for the signal sent and the error
code. -/
def kill_eliza_run (reg : Registry) (run_id : String) (now : String)
    (signal : SignalOutcome) : Registry × ApiResponse RunResult :=
  match lookupReg reg run_id with
  | none =>
      (reg, ApiResponse.err "NOT_FOUND"
        ("Process " ++ run_id ++ " not found or already completed"))
  | some h =>
      if h.can_control then
        match h.run_result.pid with
        | some pid =>
            match signal with
            | SignalOutcome.delivered =>
                let h1 := ProcessHandle.mark_completed
                  { h with run_result :=
                      { h.run_result with
                          status := RunStatus.Killed
                          ended_at := some now } }
                (modifyReg reg run_id (fun _ => h1), ApiResponse.ok h1.run_result)
            | SignalOutcome.failed e =>
                (reg, ApiResponse.err "KILL_ERROR"
                  ("Failed to kill process (PID: " ++ toString pid ++ "): " ++ e))
        | none =>
            (reg, ApiResponse.err "NO_PID"
              "Process has no PID available for control")
      else
        (reg, ApiResponse.ok h.run_result)

/-! ### Command resolution and execution paths, from process.rs

The resolver probes the local binary first and the package runner second;
the two probe outcomes are environment inputs.  Process spawn, wait and
captured output are likewise environment inputs, gathered in the outcome
types below.  The generated run identifier is a parameter: the source calls
`crate::models::generate_safe_run_id()`, whose definition is outside the
supervision module; per the specification it produces a fresh unique string
(timestamp plus random suffix). -/

/-- Embedding of `resolve_eliza_command` (process.rs lines 657-681), with
the success of each probe as input. -/
def resolve_eliza_command (elizaOk npxOk : Bool) :
    Except AppError (String × Bool) :=
  if elizaOk then Except.ok ("elizaos", false)
  else if npxOk then Except.ok ("npx", true)
  else Except.error (AppError.CliNotFound
    "ElizaOS CLI not available. Please install with: npm install -g @elizaos/cli@latest")

/-- Captured output of a process that was successfully waited on:
`ExitStatus::code()` (none when the child was terminated by a signal, and
success holds exactly when the code is zero on Unix) plus the captured
stdout and stderr, already split into lines. -/
structure CmdOutput where
  code : Option Int
  out_lines : List String
  err_lines : List String
  deriving Repr, DecidableEq

/-- Outcome of the simple path's `spawn` / `wait_with_output` interaction. -/
inductive SpawnOutcome where
  | spawnErr (e : String)
  | spawned (wait : Except String CmdOutput)
  deriving Repr

/-- Embedding of `execute_eliza_run_simple` (process.rs lines 304-423).
The run identifier, timestamps and elapsed milliseconds are environment
inputs.  Note the source passes the generated run id as the started-at
argument of `RunResult::new`. -/
def execute_eliza_run_simple (spec : RunSpec) (config : SandboxConfig)
    (run_id : String) (elizaOk npxOk : Bool) (outcome : SpawnOutcome)
    (now : String) (elapsed_ms : Nat) : Except AppError RunResult :=
  match resolve_eliza_command elizaOk npxOk with
  | Except.error e => Except.error e
  | Except.ok (_cmd, use_npx) =>
      let _args := build_eliza_args spec config use_npx
      let r0 := { RunResult.new spec run_id with status := RunStatus.Running }
      match outcome with
      | SpawnOutcome.spawned (Except.ok out) =>
          Except.ok { r0 with
            status := if out.code = some 0 then RunStatus.Completed
                      else RunStatus.Failed
            stdout := out.out_lines
            stderr := out.err_lines
            exit_code := out.code
            ended_at := some now
            duration_ms := some elapsed_ms }
      | SpawnOutcome.spawned (Except.error e) =>
          Except.ok { r0 with
            status := RunStatus.Failed
            stderr := r0.stderr ++ ["Failed to wait for process: " ++ e]
            ended_at := some now
            duration_ms := some elapsed_ms }
      | SpawnOutcome.spawnErr e =>
          Except.ok { r0 with
            status := RunStatus.Failed
            stderr := r0.stderr ++ ["Failed to start process: " ++ e]
            ended_at := some now
            duration_ms := some elapsed_ms }

/-- Embedding of the `start_eliza_run` command (process.rs lines 79-106). -/
def start_eliza_run (spec : RunSpec) (config : SandboxConfig)
    (run_id : String) (elizaOk npxOk : Bool) (outcome : SpawnOutcome)
    (now : String) (elapsed_ms : Nat) : ApiResponse RunResult :=
  if !config.is_valid then
    ApiResponse.err "INVALID_CONFIG" "Invalid Sandbox configuration"
  else
    match execute_eliza_run_simple spec config run_id elizaOk npxOk outcome
        now elapsed_ms with
    | Except.ok result => ApiResponse.ok result
    | Except.error e =>
        ApiResponse.err "START_ERROR" ("Failed to start run: " ++ e.message)

/-- Delay, in seconds, before a finished entry is removed from the registry
(process.rs line 604: `Duration::from_secs(5)`). -/
def cleanup_delay_secs : Nat := 5

/-- Outcome of the streaming path's spawn / pid / wait / line-reader
interactions: either the spawn failed, or the child started with an optional
pid, the exit wait either produced an exit status or an error, and the two
line readers collected the given line sequences. -/
inductive StreamOutcome where
  | spawnErr (e : String)
  | spawned (pid : Option Nat) (wait : Except String (Option Int))
      (out_lines err_lines : List String)
  deriving Repr

/-- Embedding of `execute_eliza_run_streaming` (process.rs lines 426-654).
Returns the response, the registry as left at the end of the call, and the
list of scheduled delayed-cleanup tasks as pairs of run id and due time
(schedule instant plus the fixed delay).  The clock parameter is the instant
at which the finalisation block runs. -/
def execute_eliza_run_streaming (reg : Registry) (spec : RunSpec)
    (config : SandboxConfig) (run_id : String) (elizaOk npxOk : Bool)
    (outcome : StreamOutcome) (now : String) (elapsed_ms : Nat)
    (clock : Nat) : Except AppError RunResult × Registry × List (String × Nat) :=
  match resolve_eliza_command elizaOk npxOk with
  | Except.error e => (Except.error e, reg, [])
  | Except.ok (_cmd, use_npx) =>
      let _args := build_eliza_args spec config use_npx
      let r0 := { RunResult.new spec run_id with status := RunStatus.Running }
      match outcome with
      | StreamOutcome.spawnErr e =>
          -- The mutated local run result is dropped; the function returns
          -- the error, later surfaced as a START_ERROR response.
          (Except.error (AppError.Process ("Failed to spawn process: " ++ e)),
            reg, [])
      | StreamOutcome.spawned pid wait out_lines err_lines =>
          let r1 := match pid with
            | some p => { r0 with pid := some p }
            | none => r0
          let reg1 := match pid with
            | some _ => insertReg reg run_id (ProcessHandle.new r1)
            | none => reg
          let final : RunResult :=
            match wait with
            | Except.ok code =>
                { r1 with
                  status := if code = some 0 then RunStatus.Completed
                            else RunStatus.Failed
                  exit_code := code
                  stdout := out_lines
                  stderr := err_lines
                  ended_at := some now
                  duration_ms := some elapsed_ms }
            | Except.error e =>
                { r1 with
                  status := RunStatus.Failed
                  stdout := out_lines
                  stderr := err_lines ++ ["Process wait failed: " ++ e]
                  ended_at := some now
                  duration_ms := some elapsed_ms }
          let reg2 := modifyReg reg1 run_id
            (fun h => ProcessHandle.mark_completed
              (ProcessHandle.update_result h final))
          (Except.ok final, reg2, [(run_id, clock + cleanup_delay_secs)])

/-- Embedding of the `start_eliza_run_streaming` command (process.rs lines
44-75). -/
def start_eliza_run_streaming (reg : Registry) (spec : RunSpec)
    (config : SandboxConfig) (run_id : String) (elizaOk npxOk : Bool)
    (outcome : StreamOutcome) (now : String) (elapsed_ms : Nat)
    (clock : Nat) : ApiResponse RunResult × Registry × List (String × Nat) :=
  if !config.is_valid then
    (ApiResponse.err "INVALID_CONFIG" "Invalid Sandbox configuration", reg, [])
  else
    match execute_eliza_run_streaming reg spec config run_id elizaOk npxOk
        outcome now elapsed_ms clock with
    | (Except.ok result, reg1, cl) => (ApiResponse.ok result, reg1, cl)
    | (Except.error e, reg1, cl) =>
        (ApiResponse.err "START_ERROR"
          ("Failed to start streaming run: " ++ e.message), reg1, cl)

/-! ### Secret redaction, from process.rs — byte-level model

Rust strings are UTF-8 byte sequences and `&arg[..12]` is a byte-range
slice: it panics when 12 exceeds the length or falls inside a multi-byte
character.  Arguments are therefore modelled as lists of bytes.  A result of
`none` marks a panic of the Rust code. -/

abbrev Bytes := List Nat

/-- The bytes of the fixed secret marker "eliza_". -/
def elizaTag : Bytes := [101, 108, 105, 122, 97, 95]

/-- The bytes of the redaction mask appended by the source, "***". -/
def redactMask : Bytes := [42, 42, 42]

/-- The bytes of "api", the substring probed by `sanitize_args_for_logging`. -/
def apiSub : Bytes := [97, 112, 105]

/-- A UTF-8 continuation byte (second or later byte of a multi-byte
character). -/
def isContinuationByte (b : Nat) : Bool := 128 ≤ b && b < 192

/-- Rust `str::is_char_boundary`: true at 0 and at the length, false past
the end, and otherwise true exactly when the byte at the index is not a
continuation byte. -/
def isCharBoundary (s : Bytes) (i : Nat) : Bool :=
  if i = 0 then true
  else if i = s.length then true
  else if i < s.length then !isContinuationByte (s.getD i 0)
  else false

/-- Rust `&arg[..n]`: the first n bytes, or a panic (`none`) when n is not a
character boundary of the string. -/
def byteSliceTo (s : Bytes) (n : Nat) : Option Bytes :=
  if isCharBoundary s n then some (s.take n) else none

/-- Does one byte sequence occur contiguously inside another?  Used to state
that a redacted representation never contains the raw secret. -/
def bytesContain (hay needle : Bytes) : Prop :=
  ∃ pre post, hay = pre ++ needle ++ post

/-- Embedding of the per-argument step of the inline safe-args construction
in `execute_eliza_run_simple` (process.rs lines 324-333) and
`execute_eliza_run_streaming` (lines 456-465): arguments starting with
"eliza_" are replaced by their first 12 bytes followed by the mask, with no
length guard before the slice. -/
def safe_arg_inline (arg : Bytes) : Option Bytes :=
  if elizaTag.isPrefixOf arg then
    (byteSliceTo arg 12).map (fun p => p ++ redactMask)
  else
    some arg

/-- The full inline safe-args list; `none` when any element panics. -/
def safe_args_inline (args : List Bytes) : Option (List Bytes) :=
  args.mapM safe_arg_inline

/-- Occurrence test for a contiguous byte subsequence, as Rust
`str::contains` on "api" (ASCII needles match at byte granularity). -/
def bytesContainB (hay needle : Bytes) : Bool :=
  (List.range (hay.length + 1)).any
    (fun i => needle.isPrefixOf (hay.drop i))

/-- Embedding of the per-argument step of `sanitize_args_for_logging`
(process.rs lines 804-816): "eliza_"-prefixed arguments longer than 20
bytes are sliced to 12 bytes plus the mask, arguments containing "api" and
longer than 20 bytes are fully masked, everything else passes through. -/
def sanitize_arg (arg : Bytes) : Option Bytes :=
  if elizaTag.isPrefixOf arg && decide (arg.length > 20) then
    (byteSliceTo arg 12).map (fun p => p ++ redactMask)
  else if bytesContainB arg apiSub && decide (arg.length > 20) then
    some redactMask
  else
    some arg

/-- Embedding of `sanitize_args_for_logging` over a whole argument list. -/
def sanitize_args_for_logging (args : List Bytes) : Option (List Bytes) :=
  args.mapM sanitize_arg

/-- An argument recognizable as a secret: the fixed "eliza_" marker and the
fixed secret length of 70 bytes ("eliza_" plus 64 hex characters, the length
required by `SandboxConfig::is_valid`). -/
def isSecretArg (arg : Bytes) : Prop :=
  elizaTag.isPrefixOf arg ∧ arg.length = 70

/-! ### Post-finalisation registry timeline, from process.rs lines 600-611

After finalising a run the streaming path spawns a task that sleeps for the
fixed delay and then removes the registry entry unconditionally.  The small
step relation below models the world after finalisation: time advances in
ticks, and a scheduled cleanup whose due time has been reached may fire,
filtering its run id out of the registry and consuming the task.  No step
re-inserts an entry: submissions of other runs only touch their own fresh
identifiers, so they are irrelevant to the tracked run and omitted. -/

structure SupState where
  registry : Registry
  cleanups : List (String × Nat)
  clock : Nat

inductive SupStep : SupState → SupState → Prop
  | tick (s : SupState) :
      SupStep s { s with clock := s.clock + 1 }
  | fire (s : SupState) (id : String) (due : Nat)
      (hmem : (id, due) ∈ s.cleanups) (hdue : due ≤ s.clock) :
      SupStep s
        { registry := removeReg s.registry id
          cleanups := s.cleanups.erase (id, due)
          clock := s.clock }

/-- Reachability along supervisor steps. -/
def SupReach : SupState → SupState → Prop :=
  Relation.ReflTransGen SupStep

/-! ### Concrete sample data used by counterexamples and witnesses -/

/-- A sample run specification (the spec's own test scenario: mode Custom,
args echo hello). -/
def spec0 : RunSpec :=
  { id := "test", mode := RunMode.Custom, args := ["echo", "hello"],
    env := [], working_dir := none, character_file := none }

/-- A sample configuration that passes `SandboxConfig::is_valid`. -/
def cfg0 : SandboxConfig :=
  { base_url := "https://api.example.com",
    api_key := "eliza_aaaaaaaaaaaaaaaaaaaaaaaaaaaaaaaaaaaaaaaaaaaaaaaaaaaaaaaaaaaaaaaa",
    default_model := some "gpt-4" }

/-- A registry entry for a live controllable run with a recorded pid. -/
def runningResult : RunResult :=
  { RunResult.new spec0 "T0" with pid := some 42 }

def runningHandle : ProcessHandle := ProcessHandle.new runningResult

def regRun : Registry := [("r1", runningHandle)]

/-- A registry entry for a run that already reached a terminal state. -/
def finishedResult : RunResult :=
  { RunResult.new spec0 "T0" with
      status := RunStatus.Completed
      ended_at := some "T1"
      exit_code := some 0
      duration_ms := some 5
      pid := some 42 }

def termHandle : ProcessHandle :=
  { run_result := finishedResult, can_control := false }

def regTerm : Registry := [("r9", termHandle)]

/-- The bytes of "eliza_x": carries the secret marker but is only 7 bytes
long, shorter than the 12-byte slice taken by the inline redaction. -/
def elizaShortArg : Bytes := [101, 108, 105, 122, 97, 95, 120]

/-- An "eliza_"-prefixed argument of 22 bytes whose 12th byte is a UTF-8
continuation byte (a two-byte character straddles the slice point). -/
def elizaMultibyteArg : Bytes :=
  [101, 108, 105, 122, 97, 95, 97, 97, 97, 97, 97, 195,
   169, 97, 97, 97, 97, 97, 97, 97, 97, 97]

/-- A well-formed secret: the "eliza_" marker followed by 64 ASCII bytes,
70 bytes in total as required by `SandboxConfig::is_valid`. -/
def secret70 : Bytes := elizaTag ++ List.replicate 64 97

/-- The redacted form of `secret70`: its first 12 bytes followed by the
mask. -/
def secret70red : Bytes :=
  [101, 108, 105, 122, 97, 95, 97, 97, 97, 97, 97, 97, 42, 42, 42]

/-- The registry left behind by a concrete streaming run whose generated
run id differs from the caller-chosen spec id. -/
def c6reg : Registry :=
  (execute_eliza_run_streaming [] spec0 cfg0 "run-20240101-ab12" true false
    (StreamOutcome.spawned (some 7) (Except.ok (some 0)) [] []) "T4" 15 50).2.1

/-- The final RunResult of a concrete streaming run used to instantiate the
submission and cleanup theorems. -/
def c1StreamResult : RunResult :=
  { id := "test", spec := spec0, started_at := "run-3",
    ended_at := some "T2", exit_code := some 0, stdout := ["hello"],
    stderr := [], duration_ms := some 20, status := RunStatus.Completed,
    pid := some 7 }

def c1StreamReg : Registry :=
  [("run-3", { run_result := c1StreamResult, can_control := false })]

/-- The RunResult produced by a concrete simple-path run that exits with
code 0. -/
def c5Result : RunResult :=
  { id := "test", spec := spec0, started_at := "r",
    ended_at := some "T", exit_code := some 0, stdout := ["hello"],
    stderr := [], duration_ms := some 3, status := RunStatus.Completed,
    pid := none }

/-- Final RunResult of the concrete streaming run used for the cleanup
timeline witness. -/
def c9final : RunResult :=
  { id := "test", spec := spec0, started_at := "run-9",
    ended_at := some "T5", exit_code := some 0, stdout := [],
    stderr := [], duration_ms := some 20, status := RunStatus.Completed,
    pid := some 3 }

def c9handle : ProcessHandle :=
  { run_result := c9final, can_control := false }

/-- Registry left by that concrete streaming run at finalisation. -/
def c9reg : Registry :=
  (execute_eliza_run_streaming [] spec0 cfg0 "run-9" true false
    (StreamOutcome.spawned (some 3) (Except.ok (some 0)) [] []) "T5" 20 100).2.1

/-- Invariant of the post-finalisation timeline for one tracked run: every
scheduled cleanup for the run carries its due time; at most one such task is
pending; and either the task is still pending and the entry is stored, or
the task has fired — which requires the due time to have been reached — and
the entry is gone. -/
def cleanupInv (R : String) (due : Nat) (hF : ProcessHandle)
    (s : SupState) : Prop :=
  (∀ d, (R, d) ∈ s.cleanups → d = due) ∧
  s.cleanups.count (R, due) ≤ 1 ∧
  (((R, due) ∈ s.cleanups ∧ lookupReg s.registry R = some hF) ∨
   (due ≤ s.clock ∧ (R, due) ∉ s.cleanups ∧ lookupReg s.registry R = none))

/-! ### Claim theorems -/

/-- C7: build_eliza_args is a pure function implementing the fixed
mode-to-argv table: for every RunSpec, config and fallback flag the result
is the package-runner prefix (when the fallback is used), then the
mode-specific arguments (Doctor: the diagnostic subcommand with flags; Run:
the start subcommand plus a character-file flag from the first positional
argument when args is non-empty; Eval: the development subcommand; Custom:
the first caller argument verbatim or a help flag), then a character-file
flag when the spec carries one, then the remaining caller arguments in
order, skipping the first one only for Custom mode. -/
theorem c7_build_args_matches_table (spec : RunSpec) (config : SandboxConfig)
    (use_npx : Bool) :
    build_eliza_args spec config use_npx = spec_build_args spec use_npx := by
  rcases spec with ⟨sid, smode, sargs, senv, swd, scf⟩
  cases smode <;> cases sargs <;> cases scf <;>
    simp [build_eliza_args, spec_build_args, spec_mode_argv]

/-- C3: stop and kill are idempotent on terminated runs: when the looked-up
handle has can_control false, both operations return the stored terminal
RunResult as a success, leave the registry untouched, and a second call
yields the same response. -/
theorem c3_stop_kill_idempotent_on_terminated
    (reg : Registry) (run_id now now2 : String) (sig sig2 : SignalOutcome)
    (h : ProcessHandle)
    (hlook : lookupReg reg run_id = some h)
    (hctl : h.can_control = false) :
    stop_eliza_run reg run_id now sig = (reg, ApiResponse.ok h.run_result) ∧
    kill_eliza_run reg run_id now sig = (reg, ApiResponse.ok h.run_result) ∧
    (stop_eliza_run (stop_eliza_run reg run_id now sig).1 run_id now2 sig2).2
      = (stop_eliza_run reg run_id now sig).2 ∧
    (kill_eliza_run (kill_eliza_run reg run_id now sig).1 run_id now2 sig2).2
      = (kill_eliza_run reg run_id now sig).2 := by
  have hs : stop_eliza_run reg run_id now sig
      = (reg, ApiResponse.ok h.run_result) := by
    simp [stop_eliza_run, hlook, hctl]
  have hs2 : stop_eliza_run reg run_id now2 sig2
      = (reg, ApiResponse.ok h.run_result) := by
    simp [stop_eliza_run, hlook, hctl]
  have hk : kill_eliza_run reg run_id now sig
      = (reg, ApiResponse.ok h.run_result) := by
    simp [kill_eliza_run, hlook, hctl]
  have hk2 : kill_eliza_run reg run_id now2 sig2
      = (reg, ApiResponse.ok h.run_result) := by
    simp [kill_eliza_run, hlook, hctl]
  exact ⟨hs, hk, by rw [hs, hs2], by rw [hk, hk2]⟩

/-- Witness for C3 at a concrete terminated registry entry. -/
theorem c3_stop_kill_idempotent_on_terminated_witness :
    stop_eliza_run regTerm "r9" "T2" SignalOutcome.delivered
      = (regTerm, ApiResponse.ok termHandle.run_result) ∧
    kill_eliza_run regTerm "r9" "T2" SignalOutcome.delivered
      = (regTerm, ApiResponse.ok termHandle.run_result) ∧
    (stop_eliza_run
        (stop_eliza_run regTerm "r9" "T2" SignalOutcome.delivered).1
        "r9" "T3" SignalOutcome.delivered).2
      = (stop_eliza_run regTerm "r9" "T2" SignalOutcome.delivered).2 ∧
    (kill_eliza_run
        (kill_eliza_run regTerm "r9" "T2" SignalOutcome.delivered).1
        "r9" "T3" SignalOutcome.delivered).2
      = (kill_eliza_run regTerm "r9" "T2" SignalOutcome.delivered).2 :=
  c3_stop_kill_idempotent_on_terminated regTerm "r9" "T2" "T3"
    SignalOutcome.delivered SignalOutcome.delivered termHandle rfl rfl

/-- C4: when a run is controllable with a recorded pid and signal delivery
fails, stop returns a STOP_ERROR and kill a KILL_ERROR carrying the OS
error, and the registry — hence the run's entire state, still controllable
and unmodified — is left unchanged. -/
theorem c4_control_failure_leaves_state_unchanged
    (reg : Registry) (run_id now e : String) (h : ProcessHandle) (p : Nat)
    (hlook : lookupReg reg run_id = some h)
    (hctl : h.can_control = true)
    (hpid : h.run_result.pid = some p)
    (hrun : h.run_result.status = RunStatus.Running) :
    stop_eliza_run reg run_id now (SignalOutcome.failed e)
      = (reg, ApiResponse.err "STOP_ERROR"
          ("Failed to stop process (PID: " ++ toString p ++ "): " ++ e)) ∧
    kill_eliza_run reg run_id now (SignalOutcome.failed e)
      = (reg, ApiResponse.err "KILL_ERROR"
          ("Failed to kill process (PID: " ++ toString p ++ "): " ++ e)) ∧
    lookupReg (stop_eliza_run reg run_id now (SignalOutcome.failed e)).1 run_id
      = some h ∧
    lookupReg (kill_eliza_run reg run_id now (SignalOutcome.failed e)).1 run_id
      = some h ∧
    h.run_result.status = RunStatus.Running ∧
    h.can_control = true := by
  have hs : stop_eliza_run reg run_id now (SignalOutcome.failed e)
      = (reg, ApiResponse.err "STOP_ERROR"
          ("Failed to stop process (PID: " ++ toString p ++ "): " ++ e)) := by
    simp [stop_eliza_run, hlook, hctl, hpid]
  have hk : kill_eliza_run reg run_id now (SignalOutcome.failed e)
      = (reg, ApiResponse.err "KILL_ERROR"
          ("Failed to kill process (PID: " ++ toString p ++ "): " ++ e)) := by
    simp [kill_eliza_run, hlook, hctl, hpid]
  exact ⟨hs, hk, by rw [hs]; exact hlook, by rw [hk]; exact hlook, hrun, hctl⟩

/-- Witness for C4 at a concrete running registry entry and a concrete OS
error. -/
theorem c4_control_failure_leaves_state_unchanged_witness :
    stop_eliza_run regRun "r1" "T3" (SignalOutcome.failed "EPERM")
      = (regRun, ApiResponse.err "STOP_ERROR"
          ("Failed to stop process (PID: " ++ toString 42 ++ "): " ++ "EPERM")) ∧
    kill_eliza_run regRun "r1" "T3" (SignalOutcome.failed "EPERM")
      = (regRun, ApiResponse.err "KILL_ERROR"
          ("Failed to kill process (PID: " ++ toString 42 ++ "): " ++ "EPERM")) ∧
    lookupReg
        (stop_eliza_run regRun "r1" "T3" (SignalOutcome.failed "EPERM")).1 "r1"
      = some runningHandle ∧
    lookupReg
        (kill_eliza_run regRun "r1" "T3" (SignalOutcome.failed "EPERM")).1 "r1"
      = some runningHandle ∧
    runningHandle.run_result.status = RunStatus.Running ∧
    runningHandle.can_control = true :=
  c4_control_failure_leaves_state_unchanged regRun "r1" "T3" "EPERM"
    runningHandle 42 rfl rfl rfl rfl

/-- C10 (code bug): the inline safe-args construction is not total.  On the
argument "eliza_x" (7 bytes) the Rust code evaluates the byte slice
arg[..12] with 12 past the end of the string and panics; on a 22-byte
argument whose 12th byte sits inside a two-byte character the slice point is
not a character boundary and it panics as well.  The guarded sibling
`sanitize_args_for_logging` returns the short argument untouched, showing
the missing length guard. -/
theorem c10_inline_redaction_panics :
    safe_arg_inline elizaShortArg = none ∧
    safe_args_inline [elizaShortArg] = none ∧
    safe_arg_inline elizaMultibyteArg = none ∧
    sanitize_arg elizaShortArg = some elizaShortArg := by
  decide

/-- C1 (counterexample): submission does not return while the run is still
Running.  With a valid config, a successful spawn and exit code 0, the
simple submission command returns a RunResult whose status is already
Completed; and on a spawn error the streaming command returns a START_ERROR
response carrying no RunResult at all rather than an immediate Failed
result. -/
theorem c1_counterexample :
    ((start_eliza_run spec0 cfg0 "run-1" true false
        (SpawnOutcome.spawned (Except.ok ⟨some 0, ["hello"], []⟩)) "T1" 10).data.map
      RunResult.status = some RunStatus.Completed) ∧
    RunStatus.Completed ≠ RunStatus.Running ∧
    ((start_eliza_run_streaming [] spec0 cfg0 "run-2" true false
        (StreamOutcome.spawnErr "boom") "T1" 0 0).1.data = none) ∧
    ((start_eliza_run_streaming [] spec0 cfg0 "run-2" true false
        (StreamOutcome.spawnErr "boom") "T1" 0 0).1.error
      = some { code := "START_ERROR",
               message := "Failed to start streaming run: Process error: Failed to spawn process: boom" }) := by
  exact ⟨rfl, by decide, rfl, rfl⟩

/-- C2 (counterexample): stop moves a running run to the terminal Killed
state setting ended_at but leaving duration_ms and exit_code unset, so the
three fields are not set together at that terminal transition. -/
theorem c2_counterexample :
    ((stop_eliza_run regRun "r1" "T3" SignalOutcome.delivered).2.data.map
        RunResult.status = some RunStatus.Killed) ∧
    ((stop_eliza_run regRun "r1" "T3" SignalOutcome.delivered).2.data.map
        RunResult.ended_at = some (some "T3")) ∧
    ((stop_eliza_run regRun "r1" "T3" SignalOutcome.delivered).2.data.map
        RunResult.duration_ms = some none) ∧
    ((stop_eliza_run regRun "r1" "T3" SignalOutcome.delivered).2.data.map
        RunResult.exit_code = some none) ∧
    ((lookupReg (stop_eliza_run regRun "r1" "T3" SignalOutcome.delivered).1
        "r1").map (fun hh => hh.run_result.duration_ms) = some none) := by
  exact ⟨rfl, rfl, rfl, rfl, rfl⟩

/-- C1 (amended): submission runs the child to completion before returning.
Whenever either execution path returns a RunResult, its status is terminal
— Completed or Failed — and never Running; on a spawn error the simple path
returns a Failed RunResult, while the streaming path returns a START_ERROR
error response instead of a RunResult. -/
theorem c1_amended_submission_returns_terminal :
    (∀ (spec : RunSpec) (config : SandboxConfig) (rid : String)
        (eOk nOk : Bool) (outc : SpawnOutcome) (now : String) (ms : Nat)
        (r : RunResult),
      execute_eliza_run_simple spec config rid eOk nOk outc now ms
          = Except.ok r →
      (r.status = RunStatus.Completed ∨ r.status = RunStatus.Failed)) ∧
    (∀ (reg : Registry) (spec : RunSpec) (config : SandboxConfig)
        (rid : String) (eOk nOk : Bool) (outc : StreamOutcome) (now : String)
        (ms clk : Nat) (r : RunResult) (reg2 : Registry)
        (cl : List (String × Nat)),
      execute_eliza_run_streaming reg spec config rid eOk nOk outc now ms clk
          = (Except.ok r, reg2, cl) →
      (r.status = RunStatus.Completed ∨ r.status = RunStatus.Failed)) ∧
    (∀ (spec : RunSpec) (config : SandboxConfig) (rid : String)
        (eOk nOk : Bool) (e now : String) (ms : Nat) (r : RunResult),
      execute_eliza_run_simple spec config rid eOk nOk
          (SpawnOutcome.spawnErr e) now ms = Except.ok r →
      r.status = RunStatus.Failed) ∧
    (∀ (reg : Registry) (spec : RunSpec) (config : SandboxConfig)
        (rid e now : String) (ms clk : Nat),
      config.is_valid = true →
      (start_eliza_run_streaming reg spec config rid true false
          (StreamOutcome.spawnErr e) now ms clk).1
        = ApiResponse.err "START_ERROR"
            ("Failed to start streaming run: "
              ++ ("Process error: " ++ ("Failed to spawn process: " ++ e)))) := by
  refine ⟨?_, ?_, ?_, ?_⟩
  · intro spec config rid eOk nOk outc now ms r hok
    unfold execute_eliza_run_simple at hok
    cases heo : resolve_eliza_command eOk nOk with
    | error e => rw [heo] at hok; exact absurd hok (by simp)
    | ok pr =>
        rw [heo] at hok
        obtain ⟨cmd, unx⟩ := pr
        cases outc with
        | spawnErr e =>
            simp only [Except.ok.injEq] at hok
            subst hok; right; rfl
        | spawned w =>
            cases w with
            | error e =>
                simp only [Except.ok.injEq] at hok
                subst hok; right; rfl
            | ok out =>
                simp only [Except.ok.injEq] at hok
                subst hok
                by_cases hc : out.code = some 0 <;> simp [hc]
  · intro reg spec config rid eOk nOk outc now ms clk r reg2 cl hok
    unfold execute_eliza_run_streaming at hok
    cases heo : resolve_eliza_command eOk nOk with
    | error e => rw [heo] at hok; exact absurd hok (by simp)
    | ok pr =>
        rw [heo] at hok
        obtain ⟨cmd, unx⟩ := pr
        cases outc with
        | spawnErr e =>
            exact absurd hok (by simp)
        | spawned pid w outl errl =>
            cases w with
            | error e =>
                simp only [Prod.mk.injEq, Except.ok.injEq] at hok
                obtain ⟨hr, -, -⟩ := hok
                subst hr; right; rfl
            | ok code =>
                simp only [Prod.mk.injEq, Except.ok.injEq] at hok
                obtain ⟨hr, -, -⟩ := hok
                subst hr
                by_cases hc : code = some 0 <;> simp [hc]
  · intro spec config rid eOk nOk e now ms r hok
    unfold execute_eliza_run_simple at hok
    cases heo : resolve_eliza_command eOk nOk with
    | error e2 => rw [heo] at hok; exact absurd hok (by simp)
    | ok pr =>
        rw [heo] at hok
        obtain ⟨cmd, unx⟩ := pr
        simp only [Except.ok.injEq] at hok
        subst hok; rfl
  · intro reg spec config rid e now ms clk hvalid
    simp [start_eliza_run_streaming, execute_eliza_run_streaming,
      resolve_eliza_command, hvalid, AppError.message]

/-- Witness for C1 (amended) at a concrete streaming run that spawns with
pid 7 and exits with code 0. -/
theorem c1_amended_submission_returns_terminal_witness :
    c1StreamResult.status = RunStatus.Completed ∨
    c1StreamResult.status = RunStatus.Failed :=
  c1_amended_submission_returns_terminal.2.1 [] spec0 cfg0 "run-3" true false
    (StreamOutcome.spawned (some 7) (Except.ok (some 0)) ["hello"] [])
    "T2" 20 100 c1StreamResult c1StreamReg [("run-3", 105)] rfl

/-- C2 (amended): at supervisor finalisation — process exit, wait failure
or spawn failure, on either path — ended_at and duration_ms are set
together, while stop and kill perform the Killed transition setting only
ended_at and leaving exit_code and duration_ms exactly as stored. -/
theorem c2_amended_terminal_fields :
    (∀ (spec : RunSpec) (config : SandboxConfig) (rid : String)
        (eOk nOk : Bool) (outc : SpawnOutcome) (now : String) (ms : Nat)
        (r : RunResult),
      execute_eliza_run_simple spec config rid eOk nOk outc now ms
          = Except.ok r →
      r.ended_at = some now ∧ r.duration_ms = some ms) ∧
    (∀ (reg : Registry) (spec : RunSpec) (config : SandboxConfig)
        (rid : String) (eOk nOk : Bool) (outc : StreamOutcome) (now : String)
        (ms clk : Nat) (r : RunResult) (reg2 : Registry)
        (cl : List (String × Nat)),
      execute_eliza_run_streaming reg spec config rid eOk nOk outc now ms clk
          = (Except.ok r, reg2, cl) →
      r.ended_at = some now ∧ r.duration_ms = some ms) ∧
    (∀ (reg : Registry) (rid now : String) (h : ProcessHandle) (p : Nat),
      lookupReg reg rid = some h →
      h.can_control = true →
      h.run_result.pid = some p →
      ((stop_eliza_run reg rid now SignalOutcome.delivered).2.data.map
          RunResult.ended_at = some (some now) ∧
       (stop_eliza_run reg rid now SignalOutcome.delivered).2.data.map
          RunResult.duration_ms = some h.run_result.duration_ms ∧
       (stop_eliza_run reg rid now SignalOutcome.delivered).2.data.map
          RunResult.exit_code = some h.run_result.exit_code ∧
       (kill_eliza_run reg rid now SignalOutcome.delivered).2.data.map
          RunResult.ended_at = some (some now) ∧
       (kill_eliza_run reg rid now SignalOutcome.delivered).2.data.map
          RunResult.duration_ms = some h.run_result.duration_ms ∧
       (kill_eliza_run reg rid now SignalOutcome.delivered).2.data.map
          RunResult.exit_code = some h.run_result.exit_code)) := by
  refine ⟨?_, ?_, ?_⟩
  · intro spec config rid eOk nOk outc now ms r hok
    unfold execute_eliza_run_simple at hok
    cases heo : resolve_eliza_command eOk nOk with
    | error e => rw [heo] at hok; exact absurd hok (by simp)
    | ok pr =>
        rw [heo] at hok
        obtain ⟨cmd, unx⟩ := pr
        cases outc with
        | spawnErr e =>
            simp only [Except.ok.injEq] at hok
            subst hok; exact ⟨rfl, rfl⟩
        | spawned w =>
            cases w with
            | error e =>
                simp only [Except.ok.injEq] at hok
                subst hok; exact ⟨rfl, rfl⟩
            | ok out =>
                simp only [Except.ok.injEq] at hok
                subst hok; exact ⟨rfl, rfl⟩
  · intro reg spec config rid eOk nOk outc now ms clk r reg2 cl hok
    unfold execute_eliza_run_streaming at hok
    cases heo : resolve_eliza_command eOk nOk with
    | error e => rw [heo] at hok; exact absurd hok (by simp)
    | ok pr =>
        rw [heo] at hok
        obtain ⟨cmd, unx⟩ := pr
        cases outc with
        | spawnErr e => exact absurd hok (by simp)
        | spawned pid w outl errl =>
            cases w with
            | error e =>
                simp only [Prod.mk.injEq, Except.ok.injEq] at hok
                obtain ⟨hr, -, -⟩ := hok
                subst hr; exact ⟨rfl, rfl⟩
            | ok code =>
                simp only [Prod.mk.injEq, Except.ok.injEq] at hok
                obtain ⟨hr, -, -⟩ := hok
                subst hr; exact ⟨rfl, rfl⟩
  · intro reg rid now h p hlook hctl hpid
    simp [stop_eliza_run, kill_eliza_run, hlook, hctl, hpid,
      ProcessHandle.mark_completed, ApiResponse.ok]

/-- Witness for C2 (amended): the stop operation on a concrete live run
sets ended_at while duration_ms and exit_code keep their stored values. -/
theorem c2_amended_terminal_fields_witness :
    (stop_eliza_run regRun "r1" "T3" SignalOutcome.delivered).2.data.map
        RunResult.ended_at = some (some "T3") ∧
    (stop_eliza_run regRun "r1" "T3" SignalOutcome.delivered).2.data.map
        RunResult.duration_ms = some runningHandle.run_result.duration_ms ∧
    (stop_eliza_run regRun "r1" "T3" SignalOutcome.delivered).2.data.map
        RunResult.exit_code = some runningHandle.run_result.exit_code ∧
    (kill_eliza_run regRun "r1" "T3" SignalOutcome.delivered).2.data.map
        RunResult.ended_at = some (some "T3") ∧
    (kill_eliza_run regRun "r1" "T3" SignalOutcome.delivered).2.data.map
        RunResult.duration_ms = some runningHandle.run_result.duration_ms ∧
    (kill_eliza_run regRun "r1" "T3" SignalOutcome.delivered).2.data.map
        RunResult.exit_code = some runningHandle.run_result.exit_code :=
  c2_amended_terminal_fields.2.2 regRun "r1" "T3" runningHandle 42 rfl rfl rfl

/-- C5: for a run that reaches its terminal state without external
termination, the status is Completed exactly when the process exited with
code 0 and Failed exactly otherwise (nonzero or signal exit, spawn failure,
wait failure); a spawn failure yields a Failed result with a single
synthetic stderr line recording the error, and `RunResult::complete` maps a
zero exit code to Completed and any other to Failed. -/
theorem c5_terminal_status_classification :
    (∀ (spec : RunSpec) (config : SandboxConfig) (rid : String)
        (eOk nOk : Bool) (out : CmdOutput) (now : String) (ms : Nat)
        (r : RunResult),
      execute_eliza_run_simple spec config rid eOk nOk
          (SpawnOutcome.spawned (Except.ok out)) now ms = Except.ok r →
      ((r.status = RunStatus.Completed ↔ out.code = some 0) ∧
       (r.status = RunStatus.Failed ↔ out.code ≠ some 0) ∧
       r.exit_code = out.code)) ∧
    (∀ (spec : RunSpec) (config : SandboxConfig) (rid : String)
        (eOk nOk : Bool) (e now : String) (ms : Nat) (r : RunResult),
      execute_eliza_run_simple spec config rid eOk nOk
          (SpawnOutcome.spawnErr e) now ms = Except.ok r →
      (r.status = RunStatus.Failed ∧
       r.stderr = ["Failed to start process: " ++ e])) ∧
    (∀ (spec : RunSpec) (config : SandboxConfig) (rid : String)
        (eOk nOk : Bool) (e now : String) (ms : Nat) (r : RunResult),
      execute_eliza_run_simple spec config rid eOk nOk
          (SpawnOutcome.spawned (Except.error e)) now ms = Except.ok r →
      r.status = RunStatus.Failed) ∧
    (∀ (reg : Registry) (spec : RunSpec) (config : SandboxConfig)
        (rid : String) (eOk nOk : Bool) (pid : Option Nat)
        (code : Option Int) (outl errl : List String) (now : String)
        (ms clk : Nat) (r : RunResult) (reg2 : Registry)
        (cl : List (String × Nat)),
      execute_eliza_run_streaming reg spec config rid eOk nOk
          (StreamOutcome.spawned pid (Except.ok code) outl errl) now ms clk
          = (Except.ok r, reg2, cl) →
      ((r.status = RunStatus.Completed ↔ code = some 0) ∧
       (r.status = RunStatus.Failed ↔ code ≠ some 0))) ∧
    (∀ (r : RunResult) (code : Int) (t : String) (d : Nat),
      ((r.complete code t d).status = RunStatus.Completed ↔ code = 0)) := by
  refine ⟨?_, ?_, ?_, ?_, ?_⟩
  · intro spec config rid eOk nOk out now ms r hok
    unfold execute_eliza_run_simple at hok
    cases heo : resolve_eliza_command eOk nOk with
    | error e => rw [heo] at hok; exact absurd hok (by simp)
    | ok pr =>
        rw [heo] at hok
        obtain ⟨cmd, unx⟩ := pr
        simp only [Except.ok.injEq] at hok
        subst hok
        by_cases hc : out.code = some 0 <;> simp [hc]
  · intro spec config rid eOk nOk e now ms r hok
    unfold execute_eliza_run_simple at hok
    cases heo : resolve_eliza_command eOk nOk with
    | error e2 => rw [heo] at hok; exact absurd hok (by simp)
    | ok pr =>
        rw [heo] at hok
        obtain ⟨cmd, unx⟩ := pr
        simp only [Except.ok.injEq] at hok
        subst hok
        exact ⟨rfl, by simp [RunResult.new]⟩
  · intro spec config rid eOk nOk e now ms r hok
    unfold execute_eliza_run_simple at hok
    cases heo : resolve_eliza_command eOk nOk with
    | error e2 => rw [heo] at hok; exact absurd hok (by simp)
    | ok pr =>
        rw [heo] at hok
        obtain ⟨cmd, unx⟩ := pr
        simp only [Except.ok.injEq] at hok
        subst hok; rfl
  · intro reg spec config rid eOk nOk pid code outl errl now ms clk r reg2 cl
        hok
    unfold execute_eliza_run_streaming at hok
    cases heo : resolve_eliza_command eOk nOk with
    | error e => rw [heo] at hok; exact absurd hok (by simp)
    | ok pr =>
        rw [heo] at hok
        obtain ⟨cmd, unx⟩ := pr
        simp only [Prod.mk.injEq, Except.ok.injEq] at hok
        obtain ⟨hr, -, -⟩ := hok
        subst hr
        by_cases hc : code = some 0 <;> simp [hc]
  · intro r code t d
    unfold RunResult.complete
    by_cases hc : code = 0 <;> simp [hc]

/-- Witness for C5 at a concrete simple-path run exiting with code 0. -/
theorem c5_terminal_status_classification_witness :
    (c5Result.status = RunStatus.Completed ↔ (some 0 : Option Int) = some 0) ∧
    (c5Result.status = RunStatus.Failed ↔ (some 0 : Option Int) ≠ some 0) ∧
    c5Result.exit_code = some 0 :=
  c5_terminal_status_classification.1 spec0 cfg0 "r" true false
    ⟨some 0, ["hello"], []⟩ "T" 3 c5Result rfl

/-- C6 (code bug): the streaming path registers the run under the generated
run id but the stored RunResult carries the caller-chosen spec id instead
— the generated id ends up in the started-at field — so `get_run_result`
answered for the registry key returns a RunResult whose id differs from
that key. -/
theorem c6_registry_key_id_mismatch :
    ((lookupReg c6reg "run-20240101-ab12").map
        (fun hh => hh.run_result.id) = some "test") ∧
    ((lookupReg c6reg "run-20240101-ab12").map
        (fun hh => hh.run_result.started_at) = some "run-20240101-ab12") ∧
    ("test" : String) ≠ "run-20240101-ab12" ∧
    ((get_run_result c6reg "run-20240101-ab12").data.map
        RunResult.id = some "test") := by
  exact ⟨rfl, rfl, by decide, rfl⟩

/-- C8: whenever a redacted representation of a secret argument (the fixed
"eliza_" marker, the fixed 70-byte length) is produced — by
`sanitize_args_for_logging` or by the inline safe-args construction — it
consists of the first 12 bytes of the raw value followed by the mask, and
never contains the full raw value. -/
theorem c8_secret_redaction (arg out1 out2 : Bytes)
    (hsec : isSecretArg arg)
    (h1 : sanitize_arg arg = some out1)
    (h2 : safe_arg_inline arg = some out2) :
    out1 = arg.take 12 ++ redactMask ∧
    out2 = arg.take 12 ++ redactMask ∧
    ¬ bytesContain out1 arg ∧
    ¬ bytesContain out2 arg := by
  obtain ⟨hpre, hlen⟩ := hsec
  have hcond : (elizaTag.isPrefixOf arg && decide (arg.length > 20)) = true := by
    simp [hpre, hlen]
  rw [sanitize_arg, hcond, if_pos rfl] at h1
  rw [safe_arg_inline, if_pos hpre] at h2
  cases hb : byteSliceTo arg 12 with
  | none =>
      rw [hb] at h1
      exact absurd h1 (by simp)
  | some p =>
      have hp : p = arg.take 12 := by
        unfold byteSliceTo at hb
        by_cases hcb : isCharBoundary arg 12
        · simp [hcb] at hb; exact hb.symm
        · simp [hcb] at hb
      rw [hb] at h1 h2
      simp only [Option.map_some', Option.some.injEq] at h1 h2
      subst hp
      have hout1 : out1 = arg.take 12 ++ redactMask := h1.symm
      have hout2 : out2 = arg.take 12 ++ redactMask := h2.symm
      have hlen15 : (arg.take 12 ++ redactMask).length = 15 := by
        simp [List.length_append, List.length_take, hlen, redactMask]
      refine ⟨hout1, hout2, ?_, ?_⟩
      · rintro ⟨pre, post, hco⟩
        rw [hout1] at hco
        have hL := congrArg List.length hco
        simp only [List.length_append, hlen15, hlen] at hL
        omega
      · rintro ⟨pre, post, hco⟩
        rw [hout2] at hco
        have hL := congrArg List.length hco
        simp only [List.length_append, hlen15, hlen] at hL
        omega

/-- Witness for C8 at a concrete 70-byte secret. -/
theorem c8_secret_redaction_witness :
    secret70red = secret70.take 12 ++ redactMask ∧
    secret70red = secret70.take 12 ++ redactMask ∧
    ¬ bytesContain secret70red secret70 ∧
    ¬ bytesContain secret70red secret70 :=
  c8_secret_redaction secret70 secret70red secret70red ⟨rfl, rfl⟩ rfl rfl

/-! ### Registry lemmas for the cleanup timeline -/

theorem lookupReg_removeReg_self (reg : Registry) (id : String) :
    lookupReg (removeReg reg id) id = none := by
  induction reg with
  | nil => rfl
  | cons p t ih =>
      simp only [removeReg] at ih ⊢
      rw [List.filter_cons]
      by_cases hp : (p.1 == id) = true
      · simp [hp, ih]
      · have hp' : (p.1 == id) = false := by simpa using hp
        simp [hp', lookupReg, ih]

theorem lookupReg_removeReg_ne (reg : Registry) (id id' : String)
    (hne : id ≠ id') :
    lookupReg (removeReg reg id') id = lookupReg reg id := by
  induction reg with
  | nil => rfl
  | cons p t ih =>
      simp only [removeReg] at ih ⊢
      rw [List.filter_cons]
      by_cases hp : (p.1 == id') = true
      · have hpeq : p.1 = id' := by simpa using hp
        have hpid : (p.1 == id) = false := by
          simp [hpeq, Ne.symm hne]
        simp [hp, lookupReg, hpid, ih]
      · have hp' : (p.1 == id') = false := by simpa using hp
        by_cases hq : (p.1 == id) = true
        · simp [hp', lookupReg, hq]
        · have hq' : (p.1 == id) = false := by simpa using hq
          simp [hp', lookupReg, hq', ih]

/-- Preservation of the cleanup invariant along one supervisor step. -/
theorem cleanupInv_step {R : String} {due : Nat} {hF : ProcessHandle}
    {s s' : SupState} (hstep : SupStep s s')
    (hinv : cleanupInv R due hF s) : cleanupInv R due hF s' := by
  obtain ⟨huniq, hcount, hdisj⟩ := hinv
  cases hstep with
  | tick =>
      refine ⟨huniq, hcount, ?_⟩
      rcases hdisj with ⟨hmem, hlook⟩ | ⟨hle, hnmem, hlook⟩
      · exact Or.inl ⟨hmem, hlook⟩
      · exact Or.inr ⟨Nat.le_succ_of_le hle, hnmem, hlook⟩
  | fire id d hmem hdue =>
      by_cases hid : id = R
      · subst hid
        have hd : d = due := huniq d hmem
        subst hd
        rcases hdisj with ⟨hmem2, hlook⟩ | ⟨hle, hnmem, hlook⟩
        · refine ⟨?_, ?_, Or.inr ⟨hdue, ?_, ?_⟩⟩
          · intro d2 hd2
            exact huniq d2 (List.mem_of_mem_erase hd2)
          · rw [List.count_erase_self]
            omega
          · have h1 : s.cleanups.count (id, d) = 1 := by
              have hpos := List.count_pos_iff.mpr hmem2
              omega
            have h0 : (s.cleanups.erase (id, d)).count (id, d) = 0 := by
              rw [List.count_erase_self, h1]
            exact List.count_eq_zero.mp h0
          · exact lookupReg_removeReg_self _ _
        · exact absurd hmem hnmem
      · have hneRP : (R, due) ≠ (id, d) := by
          intro hcontra
          apply hid
          injection hcontra with h1 h2
          exact h1.symm
        have hneR : R ≠ id := fun h => hid h.symm
        refine ⟨?_, ?_, ?_⟩
        · intro d2 hd2
          exact huniq d2 (List.mem_of_mem_erase hd2)
        · rw [List.count_erase_of_ne hneRP]
          exact hcount
        · rcases hdisj with ⟨hmem2, hlook⟩ | ⟨hle, hnmem, hlook⟩
          · refine Or.inl ⟨(List.mem_erase_of_ne hneRP).mpr hmem2, ?_⟩
            rw [lookupReg_removeReg_ne _ _ _ hneR]
            exact hlook
          · refine Or.inr ⟨hle, ?_, ?_⟩
            · intro hmem3
              exact hnmem (List.mem_of_mem_erase hmem3)
            · rw [lookupReg_removeReg_ne _ _ _ hneR]
              exact hlook

/-- Preservation of the cleanup invariant along any number of steps. -/
theorem cleanupInv_reach {R : String} {due : Nat} {hF : ProcessHandle}
    {s s' : SupState} (hreach : SupReach s s')
    (hinv : cleanupInv R due hF s) : cleanupInv R due hF s' := by
  induction hreach with
  | refl => exact hinv
  | tail hab hstep ih => exact cleanupInv_step hstep ih

/-- C9: after a streaming run is finalised — its final handle stored under
the generated id and one cleanup task scheduled for the fixed grace delay —
the registry entry remains observable through get_run_result at every
reachable instant before the due time, and once the scheduled removal has
fired (which can only happen at or after the due time, and removes the
entry unconditionally) get_run_result answers NOT_FOUND. -/
theorem c9_delayed_cleanup (reg : Registry) (spec : RunSpec)
    (config : SandboxConfig) (R : String) (eOk nOk : Bool)
    (pid : Option Nat) (wait : Except String (Option Int))
    (outl errl : List String) (now : String) (ms t0 : Nat)
    (fr : RunResult) (reg' : Registry) (hF : ProcessHandle) (s : SupState)
    (_hexec : execute_eliza_run_streaming reg spec config R eOk nOk
        (StreamOutcome.spawned pid wait outl errl) now ms t0
        = (Except.ok fr, reg', [(R, t0 + cleanup_delay_secs)]))
    (hlook : lookupReg reg' R = some hF)
    (hreach : SupReach
        { registry := reg', cleanups := [(R, t0 + cleanup_delay_secs)],
          clock := t0 } s) :
    (s.clock < t0 + cleanup_delay_secs →
        get_run_result s.registry R = ApiResponse.ok hF.run_result) ∧
    ((R, t0 + cleanup_delay_secs) ∉ s.cleanups →
        get_run_result s.registry R
          = ApiResponse.err "NOT_FOUND" ("Run " ++ R ++ " not found")) := by
  have hinv0 : cleanupInv R (t0 + cleanup_delay_secs) hF
      { registry := reg', cleanups := [(R, t0 + cleanup_delay_secs)],
        clock := t0 } := by
    refine ⟨?_, ?_, Or.inl ⟨?_, hlook⟩⟩
    · intro d hd
      simp only [List.mem_singleton, Prod.mk.injEq] at hd
      exact hd.2
    · simp
    · exact List.mem_singleton_self _
  have hinv := cleanupInv_reach hreach hinv0
  obtain ⟨huniq, hcount, hdisj⟩ := hinv
  constructor
  · intro hclock
    rcases hdisj with ⟨hmem, hlookS⟩ | ⟨hle, -, -⟩
    · unfold get_run_result
      rw [hlookS]
    · omega
  · intro hnmem
    rcases hdisj with ⟨hmem, -⟩ | ⟨-, -, hlookS⟩
    · exact absurd hmem hnmem
    · unfold get_run_result
      rw [hlookS]

/-- Witness for C9 at a concrete finalised streaming run: the entry is
observable at the finalisation instant, and after five ticks the fired
cleanup leaves get_run_result answering NOT_FOUND. -/
theorem c9_delayed_cleanup_witness :
    get_run_result c9reg "run-9" = ApiResponse.ok c9handle.run_result ∧
    get_run_result (removeReg c9reg "run-9") "run-9"
      = ApiResponse.err "NOT_FOUND" ("Run " ++ "run-9" ++ " not found") := by
  constructor
  · exact (c9_delayed_cleanup [] spec0 cfg0 "run-9" true false (some 3)
      (Except.ok (some 0)) [] [] "T5" 20 100 c9final c9reg c9handle
      { registry := c9reg, cleanups := [("run-9", 105)], clock := 100 }
      rfl rfl Relation.ReflTransGen.refl).1 (by decide)
  · have h1 : SupStep
        { registry := c9reg, cleanups := [("run-9", 105)], clock := 100 }
        { registry := c9reg, cleanups := [("run-9", 105)], clock := 101 } :=
      SupStep.tick _
    have h2 : SupStep
        { registry := c9reg, cleanups := [("run-9", 105)], clock := 101 }
        { registry := c9reg, cleanups := [("run-9", 105)], clock := 102 } :=
      SupStep.tick _
    have h3 : SupStep
        { registry := c9reg, cleanups := [("run-9", 105)], clock := 102 }
        { registry := c9reg, cleanups := [("run-9", 105)], clock := 103 } :=
      SupStep.tick _
    have h4 : SupStep
        { registry := c9reg, cleanups := [("run-9", 105)], clock := 103 }
        { registry := c9reg, cleanups := [("run-9", 105)], clock := 104 } :=
      SupStep.tick _
    have h5 : SupStep
        { registry := c9reg, cleanups := [("run-9", 105)], clock := 104 }
        { registry := c9reg, cleanups := [("run-9", 105)], clock := 105 } :=
      SupStep.tick _
    have hf : SupStep
        { registry := c9reg, cleanups := [("run-9", 105)], clock := 105 }
        { registry := removeReg c9reg "run-9",
          cleanups := List.erase [("run-9", 105)] ("run-9", 105),
          clock := 105 } :=
      SupStep.fire _ "run-9" 105 (List.mem_singleton_self _) (Nat.le_refl 105)
    have hreach : SupReach
        { registry := c9reg, cleanups := [("run-9", 105)], clock := 100 }
        { registry := removeReg c9reg "run-9",
          cleanups := List.erase [("run-9", 105)] ("run-9", 105),
          clock := 105 } :=
      Relation.ReflTransGen.head h1 (Relation.ReflTransGen.head h2
        (Relation.ReflTransGen.head h3 (Relation.ReflTransGen.head h4
          (Relation.ReflTransGen.head h5 (Relation.ReflTransGen.head hf
            Relation.ReflTransGen.refl)))))
    exact (c9_delayed_cleanup [] spec0 cfg0 "run-9" true false (some 3)
      (Except.ok (some 0)) [] [] "T5" 20 100 c9final c9reg c9handle
      { registry := removeReg c9reg "run-9",
        cleanups := List.erase [("run-9", 105)] ("run-9", 105),
        clock := 105 }
      rfl rfl hreach).2 (by decide)

end ElizaTauri
